import Mathlib

/-!
Verification of the customer-management CLI (`customer_manager.py`).

The program keeps a list of customer records in a JSON file and offers four
commands: list, add, edit, delete.  Records are JSON objects whose keys may be
absent, so each field is modelled as an `Option`.  File I/O and the JSON
library are external to the repository; they are modelled abstractly: the
backing file is `Option (Option JsonDoc)` where `none` is "file does not
exist", `some none` is "content fails to parse", and `some (some d)` is a
parsed document `d` (either a JSON array of records, or anything else).

Commands are embedded as pure functions from the loaded store to a
`CmdResult` recording the printed lines, the process exit status, and the
store written back to the file (`none` when no write happens).
-/

namespace CustomerManager

/-- A customer record: a JSON object whose keys `id`, `name`, `phone`,
`email`, `notes` may each be absent (hence `Option`).  Field order of the
structure mirrors the key order the program writes. -/
structure Customer where
  id : Option Int
  name : Option String
  phone : Option String
  email : Option String
  notes : Option String
deriving Repr, DecidableEq

/-- The tri-state edit arguments of the `edit` subcommand: each of the four
optional flags is either absent (`none`, leave unchanged) or supplied
(`some v`, overwrite, including `some ""`). -/
structure EditFields where
  name : Option String
  phone : Option String
  email : Option String
  notes : Option String
deriving Repr, DecidableEq

/-- A parsed JSON document: either an array of records or any other shape.
(The JSON parser itself is the Python standard library, external to the
repository, so it is modelled at the level of its result.) -/
inductive JsonDoc where
  | jarr (records : List Customer)
  | jother
deriving DecidableEq

/-- `load_customers` (lines 17-27): `none` = file missing, `some none` =
JSONDecodeError, `some (some d)` = parsed document `d`. -/
def load_customers (file : Option (Option JsonDoc)) : List Customer :=
  match file with
  | none => []
  | some none => []
  | some (some JsonDoc.jother) => []
  | some (some (JsonDoc.jarr records)) => records

/-- `save_customers` (lines 30-32): writes the full list as a JSON array;
the resulting file exists and parses to that array. -/
def save_customers (customers : List Customer) : Option (Option JsonDoc) :=
  some (some (JsonDoc.jarr customers))

/-- `c.get("id", 0)` from line 38. -/
def idVal (c : Customer) : Int := c.id.getD 0

/-- `next_id` (lines 35-38): 1 on the empty list, otherwise
`max(c.get("id", 0) for c in customers) + 1` (Python `max` of a non-empty
sequence, here a left fold of `max` from the first element). -/
def next_id (customers : List Customer) : Int :=
  match customers.map idVal with
  | [] => 1
  | x :: xs => xs.foldl max x + 1

/-- One rendered table row: the five cell strings for columns
id/name/phone/email/notes. -/
structure RowCells where
  c0 : String
  c1 : String
  c2 : String
  c3 : String
  c4 : String
deriving Repr, DecidableEq

/-- The five column widths. -/
structure Widths where
  w0 : Nat
  w1 : Nat
  w2 : Nat
  w3 : Nat
  w4 : Nat
deriving Repr, DecidableEq

/-- The header labels (line 45). -/
def headersRow : RowCells := ⟨"ID", "Name", "Phone", "Email", "Notes"⟩

/-- `[str(row.get(key, "")) for key in keys]` (line 47): a missing key
renders as `""`, a present id as its decimal form, a present string as
itself. -/
def str_row (c : Customer) : RowCells :=
  ⟨(match c.id with | none => "" | some n => toString n),
   c.name.getD "", c.phone.getD "", c.email.getD "", c.notes.getD ""⟩

/-- Python `str.ljust`: pad on the right with spaces up to the width; a
string at least as long as the width is returned unchanged. -/
def ljust (s : String) (w : Nat) : String :=
  s ++ String.mk (List.replicate (w - s.length) ' ')

/-- `[len(header) for header in headers]` applied to a row (line 49). -/
def rowWidths (r : RowCells) : Widths :=
  ⟨r.c0.length, r.c1.length, r.c2.length, r.c3.length, r.c4.length⟩

/-- One step of the width loop (lines 50-52):
`widths[idx] = max(widths[idx], len(cell))`. -/
def updWidths (w : Widths) (r : RowCells) : Widths :=
  ⟨max w.w0 r.c0.length, max w.w1 r.c1.length, max w.w2 r.c2.length,
   max w.w3 r.c3.length, max w.w4 r.c4.length⟩

/-- `format_row` (lines 54-55): left-justify every cell to its column width
and join with " | ". -/
def format_row (w : Widths) (parts : RowCells) : String :=
  String.intercalate " | "
    [ljust parts.c0 w.w0, ljust parts.c1 w.w1, ljust parts.c2 w.w2,
     ljust parts.c3 w.w3, ljust parts.c4 w.w4]

/-- `"-" * width` from line 57. -/
def dashes (n : Nat) : String := String.mk (List.replicate n '-')

/-- The separator line (line 57): per-column runs of `-` joined by "-+-". -/
def horizontalLine (w : Widths) : String :=
  String.intercalate "-+-"
    [dashes w.w0, dashes w.w1, dashes w.w2, dashes w.w3, dashes w.w4]

/-- `render_table` (lines 41-61). -/
def render_table (rows : List Customer) : String :=
  if rows.isEmpty then "(no customers yet)"
  else
    let strRows := rows.map str_row
    let widths := strRows.foldl updWidths (rowWidths headersRow)
    String.intercalate "\n"
      ([format_row widths headersRow, horizontalLine widths] ++
        strRows.map (format_row widths))

/-- `find_customer` (lines 84-88): linear scan, first record whose `id` key
equals the target (a record with no `id` key never matches: in Python
`None == customer_id` is false). -/
def find_customer (customers : List Customer) (customer_id : Int) :
    Option Customer :=
  match customers with
  | [] => none
  | c :: rest =>
      if c.id = some customer_id then some c
      else find_customer rest customer_id

/-- The field-update block of `edit_customer` (lines 98-105): each field is
overwritten exactly when the corresponding argument was supplied. -/
def update_fields (c : Customer) (f : EditFields) : Customer :=
  { c with
    name := match f.name with | some v => some v | none => c.name
    phone := match f.phone with | some v => some v | none => c.phone
    email := match f.email with | some v => some v | none => c.email
    notes := match f.notes with | some v => some v | none => c.notes }

/-- The effect of `edit_customer` on the store: the record returned by
`find_customer` (the first match) is mutated in place, so the store becomes
the same list with the first matching record replaced by its update. -/
def edit_apply (customers : List Customer) (i : Int) (f : EditFields) :
    List Customer :=
  match customers with
  | [] => []
  | c :: rest =>
      if c.id = some i then update_fields c f :: rest
      else c :: edit_apply rest i f

/-- `[c for c in customers if c.get("id") != args.id]` (line 118): a record
with no `id` key is kept (`None != args.id` is true in Python). -/
def delete_remaining (customers : List Customer) (i : Int) : List Customer :=
  customers.filter (fun c => decide (c.id ≠ some i))

/-- The observable outcome of one command invocation: the lines printed, the
process exit status, and the store written to the backing file (`none` when
the command performs no write). -/
structure CmdResult where
  output : List String
  exitCode : Nat
  saved : Option (List Customer)
deriving Repr, DecidableEq

/-- The record built by `add_customer` (lines 71-77); `args.phone or ""`
maps an absent (or empty) optional argument to `""`. -/
def newCustomer (customers : List Customer) (name : String)
    (phone email notes : Option String) : Customer :=
  ⟨some (next_id customers), some name, some (phone.getD ""),
   some (email.getD ""), some (notes.getD "")⟩

/-- `add_customer` (lines 69-81), acting on the loaded store. -/
def add_customer (customers : List Customer) (name : String)
    (phone email notes : Option String) : CmdResult :=
  let c := newCustomer customers name phone email notes
  ⟨["Added customer:", render_table [c]], 0, some (customers ++ [c])⟩

/-- `edit_customer` (lines 91-109), acting on the loaded store. -/
def edit_customer (customers : List Customer) (i : Int) (f : EditFields) :
    CmdResult :=
  match find_customer customers i with
  | none =>
      ⟨["Customer with ID " ++ toString i ++ " not found."], 1, none⟩
  | some c =>
      ⟨["Updated customer:", render_table [update_fields c f]], 0,
       some (edit_apply customers i f)⟩

/-- `delete_customer` (lines 112-123), acting on the loaded store; the
remaining table is printed only when the remaining list is non-empty
(`if customers:` on line 121). -/
def delete_customer (customers : List Customer) (i : Int) : CmdResult :=
  match find_customer customers i with
  | none =>
      ⟨["Customer with ID " ++ toString i ++ " not found."], 1, none⟩
  | some _ =>
      let remaining := delete_remaining customers i
      ⟨["Deleted customer " ++ toString i ++ "."] ++
         (if remaining.isEmpty then []
          else ["Remaining customers:", render_table remaining]),
       0, some remaining⟩

/-- The id values present in a store (records lacking an `id` key
contribute nothing). -/
def storeIds (customers : List Customer) : List Int :=
  customers.filterMap Customer.id

/-- The store invariant: present id values are pairwise distinct. -/
def UniqueIds (customers : List Customer) : Prop := (storeIds customers).Nodup

instance (customers : List Customer) : Decidable (UniqueIds customers) :=
  List.nodupDecidable _

/-- All present id values are positive. -/
def PosIds (customers : List Customer) : Prop :=
  ∀ i ∈ storeIds customers, 0 < i

instance (customers : List Customer) : Decidable (PosIds customers) :=
  List.decidableBAll _ _

/-- Maximum of a list of lengths, with 0 for the empty list (spec side). -/
def listMax (l : List Nat) : Nat := l.foldr max 0

/-- Spec-side column width: the maximum of the header label's length and
every cell's length in that column. -/
def colWidth (header : String) (cells : List String) : Nat :=
  max header.length (listMax (cells.map String.length))

/-- Spec-side widths: each column's width computed independently from the
header label and that column's cells. -/
def specWidths (rows : List RowCells) : Widths :=
  ⟨colWidth "ID" (rows.map RowCells.c0),
   colWidth "Name" (rows.map RowCells.c1),
   colWidth "Phone" (rows.map RowCells.c2),
   colWidth "Email" (rows.map RowCells.c3),
   colWidth "Notes" (rows.map RowCells.c4)⟩

/-- Rendering transcribed from the spec's words, for non-empty input: the
header row, the separator line, then one formatted row per record in input
order, joined by single newlines, with spec-side column widths. -/
def render_spec (rows : List Customer) : String :=
  let strRows := rows.map str_row
  let widths := specWidths strRows
  String.intercalate "\n"
    ([format_row widths headersRow, horizontalLine widths] ++
      strRows.map (format_row widths))

/-- Sample record used by concrete witnesses. -/
def ann : Customer := ⟨some 1, some "Ann", some "555-1000", some "", some ""⟩

/-- Sample record used by concrete witnesses. -/
def bob : Customer := ⟨some 2, some "Bob", none, some "bob@x.io", none⟩

/-- Sample record with a duplicated id, used by concrete witnesses. -/
def dup1 : Customer := ⟨some 3, some "A", none, none, none⟩

/-- Sample record with a duplicated id, used by concrete witnesses. -/
def dup2 : Customer := ⟨some 3, some "B", none, none, none⟩

/-- Sample record lacking an id key, used by concrete witnesses. -/
def noid : Customer := ⟨none, some "C", none, none, none⟩

/-- Sample edit arguments used by concrete witnesses: name supplied as the
empty string, phone unsupplied, email supplied, notes unsupplied. -/
def fW : EditFields := ⟨some "", none, some "e@x.io", none⟩

lemma foldr_max_exchange {α : Type} [LinearOrder α] (x a : α) (l : List α) :
    l.foldr max (max a x) = max x (l.foldr max a) := by
  induction l with
  | nil => exact max_comm a x
  | cons y ys ih =>
      show max y (ys.foldr max (max a x)) = max x (max y (ys.foldr max a))
      rw [ih, max_left_comm]

lemma foldl_max_eq_foldr {α : Type} [LinearOrder α] (a : α) (l : List α) :
    l.foldl max a = l.foldr max a := by
  induction l generalizing a with
  | nil => rfl
  | cons x xs ih =>
      show xs.foldl max (max a x) = max x (xs.foldr max a)
      rw [ih, foldr_max_exchange]

lemma foldl_max_zero (a : Nat) (l : List Nat) :
    l.foldl max a = max a (l.foldr max 0) := by
  rw [foldl_max_eq_foldr]
  induction l with
  | nil => simp
  | cons x xs ih =>
      show max x (xs.foldr max a) = max a (max x (xs.foldr max 0))
      rw [ih, max_left_comm]

lemma le_foldl_max_init {α : Type} [LinearOrder α] (a : α) (l : List α) :
    a ≤ l.foldl max a := by
  induction l generalizing a with
  | nil => exact le_refl a
  | cons x xs ih => exact le_trans (le_max_left a x) (ih (max a x))

lemma le_foldl_max_mem {α : Type} [LinearOrder α] {x : α} {l : List α}
    (a : α) (h : x ∈ l) : x ≤ l.foldl max a := by
  induction l generalizing a with
  | nil => cases h
  | cons y ys ih =>
      cases h with
      | head => exact le_trans (le_max_right a x) (le_foldl_max_init (max a x) ys)
      | tail _ hm => exact ih (max a y) hm

lemma next_id_gt {customers : List Customer} {c : Customer} {i : Int}
    (hc : c ∈ customers) (hid : c.id = some i) : i < next_id customers := by
  cases customers with
  | nil => cases hc
  | cons d rest =>
      have hvi : idVal c = i := by simp [idVal, hid]
      have hle : idVal c ≤ (rest.map idVal).foldl max (idVal d) := by
        cases hc with
        | head => exact le_foldl_max_init _ _
        | tail _ hm => exact le_foldl_max_mem _ (List.mem_map_of_mem idVal hm)
      have hni : next_id (d :: rest) = (rest.map idVal).foldl max (idVal d) + 1 := rfl
      rw [hni, Int.lt_add_one_iff]
      exact hvi ▸ hle

/-- Claim C6: load returns the empty sequence, without failing, when the
backing file does not exist, or its content fails to parse as JSON, or the
parsed document is not a list; otherwise it returns the parsed list. -/
theorem load_recovers_to_empty :
    load_customers none = []
  ∧ load_customers (some none) = []
  ∧ load_customers (some (some JsonDoc.jother)) = []
  ∧ ∀ records, load_customers (some (some (JsonDoc.jarr records))) = records :=
  ⟨rfl, rfl, rfl, fun _ => rfl⟩

/-- Claim C7: loading the file written by save returns exactly the saved
sequence, with record order preserved (field order is fixed by the record
shape on both sides). -/
theorem save_load_roundtrip (records : List Customer) :
    load_customers (save_customers records) = records := rfl

/-- Claim C9: after deleting an id from a store, looking the same id up in
the resulting sequence returns the not-found sentinel. -/
theorem find_after_delete (customers : List Customer) (i : Int) :
    find_customer (delete_remaining customers i) i = none := by
  induction customers with
  | nil => rfl
  | cons c rest ih =>
      by_cases h : c.id = some i
      · simpa [delete_remaining, List.filter_cons, h] using ih
      · simpa [delete_remaining, List.filter_cons, h, find_customer] using ih

/-- Claim C3: update overwrites each of name/phone/email/notes exactly when
a value for that field was supplied (a supplied empty string overwrites, an
unsupplied field is untouched), never touches the id, and with zero
supplied fields leaves the record unchanged. -/
theorem update_only_supplied_fields (c : Customer) (f : EditFields) :
    (update_fields c f).id = c.id
  ∧ (f.name = none → (update_fields c f).name = c.name)
  ∧ (∀ v, f.name = some v → (update_fields c f).name = some v)
  ∧ (f.phone = none → (update_fields c f).phone = c.phone)
  ∧ (∀ v, f.phone = some v → (update_fields c f).phone = some v)
  ∧ (f.email = none → (update_fields c f).email = c.email)
  ∧ (∀ v, f.email = some v → (update_fields c f).email = some v)
  ∧ (f.notes = none → (update_fields c f).notes = c.notes)
  ∧ (∀ v, f.notes = some v → (update_fields c f).notes = some v)
  ∧ update_fields c ⟨none, none, none, none⟩ = c := by
  refine ⟨rfl, fun h => ?_, fun v h => ?_, fun h => ?_, fun v h => ?_,
    fun h => ?_, fun v h => ?_, fun h => ?_, fun v h => ?_, rfl⟩ <;>
    simp [update_fields, h]

/-- Witness for C3 at a concrete record and concrete edit arguments. -/
theorem update_only_supplied_fields_witness :
    (update_fields ann fW).name = some ""
  ∧ (update_fields ann fW).phone = ann.phone
  ∧ update_fields ann ⟨none, none, none, none⟩ = ann :=
  ⟨(update_only_supplied_fields ann fW).2.2.1 "" rfl,
   (update_only_supplied_fields ann fW).2.2.2.1 rfl,
   (update_only_supplied_fields ann fW).2.2.2.2.2.2.2.2.2⟩

/-- Claim C4: when no record matches the requested id, both the edit and
the delete command print a message identifying the missing id, exit with
status 1, and write nothing to the backing file. -/
theorem not_found_no_write (customers : List Customer) (i : Int)
    (h : find_customer customers i = none) :
    (∀ f, (edit_customer customers i f).output =
            ["Customer with ID " ++ toString i ++ " not found."]
        ∧ (edit_customer customers i f).exitCode = 1
        ∧ (edit_customer customers i f).saved = none)
  ∧ ((delete_customer customers i).output =
        ["Customer with ID " ++ toString i ++ " not found."]
    ∧ (delete_customer customers i).exitCode = 1
    ∧ (delete_customer customers i).saved = none) := by
  refine ⟨fun f => ?_, ?_⟩ <;> simp [edit_customer, delete_customer, h]

/-- Witness for C4 at a concrete store and a concrete missing id. -/
theorem not_found_no_write_witness :
    find_customer [ann] 99 = none
  ∧ (delete_customer [ann] 99).exitCode = 1
  ∧ (delete_customer [ann] 99).saved = none :=
  ⟨by decide, (not_found_no_write [ann] 99 (by decide)).2.2.1,
   (not_found_no_write [ann] 99 (by decide)).2.2.2⟩

/-- Claim C2: next_id returns 1 on the empty sequence, otherwise 1 plus the
maximum of the per-record id values (a record lacking an id counts as 0);
consequently on any non-empty sequence the result is strictly greater than
every existing id. -/
theorem next_id_formula :
    next_id [] = 1
  ∧ (∀ c rest, next_id (c :: rest) =
      1 + (rest.map idVal).foldr max (idVal c))
  ∧ (∀ customers c i, customers ≠ [] → c ∈ customers → c.id = some i →
      i < next_id customers) := by
  refine ⟨rfl, fun c rest => ?_,
    fun customers c i _ hc hid => next_id_gt hc hid⟩
  show (rest.map idVal).foldl max (idVal c) + 1 =
    1 + (rest.map idVal).foldr max (idVal c)
  rw [foldl_max_eq_foldr, Int.add_comm]

/-- Witness for C2 at a concrete store with ids 1 and 2. -/
theorem next_id_formula_witness :
    ([ann, bob] : List Customer) ≠ [] ∧ bob ∈ [ann, bob]
  ∧ bob.id = some 2 ∧ (2 : Int) < next_id [ann, bob] :=
  ⟨by decide, by decide, rfl,
   next_id_formula.2.2 [ann, bob] bob 2 (by decide) (by decide) rfl⟩

lemma foldl_updWidths_eq (rows : List RowCells) (w : Widths) :
    rows.foldl updWidths w =
      ⟨(rows.map (fun r => r.c0.length)).foldl max w.w0,
       (rows.map (fun r => r.c1.length)).foldl max w.w1,
       (rows.map (fun r => r.c2.length)).foldl max w.w2,
       (rows.map (fun r => r.c3.length)).foldl max w.w3,
       (rows.map (fun r => r.c4.length)).foldl max w.w4⟩ := by
  induction rows generalizing w with
  | nil => rfl
  | cons r rs ih => exact ih (updWidths w r)

lemma widths_agree (rows : List RowCells) :
    rows.foldl updWidths (rowWidths headersRow) = specWidths rows := by
  rw [foldl_updWidths_eq]
  simp [specWidths, rowWidths, headersRow, colWidth, listMax,
    List.map_map, Function.comp_def, foldl_max_zero]

/-- Claim C5: on every non-empty record sequence, the source renderer
agrees with the spec-side renderer: header row, separator of dash runs
joined by "-+-", one row per record in input order, joined by newlines,
with per-column widths max(header length, cell lengths) and cells
left-justified and joined by " | ". -/
theorem render_table_matches_spec (rows : List Customer) (h : rows ≠ []) :
    render_table rows = render_spec rows := by
  cases rows with
  | nil => exact absurd rfl h
  | cons r rs =>
      simp only [render_table, render_spec, List.isEmpty_cons,
        Bool.false_eq_true, if_false]
      rw [widths_agree]

/-- Witness for C5 at a concrete one-record store. -/
theorem render_table_matches_spec_witness :
    ([ann] : List Customer) ≠ [] ∧ render_table [ann] = render_spec [ann] :=
  ⟨List.cons_ne_nil ann [],
   render_table_matches_spec [ann] (List.cons_ne_nil ann [])⟩

lemma update_fields_id (c : Customer) (f : EditFields) :
    (update_fields c f).id = c.id := rfl

lemma storeIds_edit_apply (customers : List Customer) (i : Int)
    (f : EditFields) :
    storeIds (edit_apply customers i f) = storeIds customers := by
  induction customers with
  | nil => rfl
  | cons c rest ih =>
      simp only [storeIds] at ih ⊢
      by_cases h : c.id = some i
      · simp [edit_apply, h, List.filterMap_cons, update_fields_id]
      · simp [edit_apply, h, List.filterMap_cons, ih]

lemma storeIds_delete_sublist (customers : List Customer) (i : Int) :
    List.Sublist (storeIds (delete_remaining customers i))
      (storeIds customers) :=
  List.Sublist.filterMap Customer.id (List.filter_sublist customers)

/-- Claim C8: from any store with unique (and positive) id values, each of
add (id assigned by next_id), edit (ids untouched) and delete (records only
removed) yields a store whose id values are still unique. -/
theorem unique_ids_invariant (customers : List Customer)
    (hU : UniqueIds customers) (hP : PosIds customers) :
    (∀ name phone email notes,
        UniqueIds (customers ++ [newCustomer customers name phone email notes]))
  ∧ (∀ i f, UniqueIds (edit_apply customers i f))
  ∧ (∀ i, UniqueIds (delete_remaining customers i)) := by
  refine ⟨fun name phone email notes => ?_, fun i f => ?_, fun i => ?_⟩
  · unfold UniqueIds
    have hsplit : storeIds (customers ++ [newCustomer customers name phone email notes])
        = storeIds customers ++ [next_id customers] := by
      simp [storeIds, List.filterMap_append, newCustomer]
    rw [hsplit]
    refine List.Nodup.append hU (List.nodup_singleton _) ?_
    rw [List.disjoint_singleton]
    intro hmem
    obtain ⟨c, hc, hcid⟩ := List.mem_filterMap.mp hmem
    exact absurd rfl (Int.ne_of_lt (next_id_gt hc hcid))
  · unfold UniqueIds
    rw [storeIds_edit_apply]
    exact hU
  · exact List.Nodup.sublist (storeIds_delete_sublist customers i) hU

/-- Witness for C8 at a concrete store with ids 1 and 2. -/
theorem unique_ids_invariant_witness :
    UniqueIds [ann, bob] ∧ PosIds [ann, bob]
  ∧ UniqueIds ([ann, bob] ++ [newCustomer [ann, bob] "Zed" none none none]) :=
  ⟨by decide, by decide,
   (unique_ids_invariant [ann, bob] (by decide) (by decide)).1
     "Zed" none none none⟩

/-- Claim C10: delete keeps exactly the records whose id key is absent or
differs from the target, in order (so all duplicates of the target id are
removed and an id-less record is never removed), while find returns the
first match, and edit rewrites only that first match. -/
theorem delete_semantics (customers : List Customer) (i : Int) :
    (∀ c, c ∈ delete_remaining customers i ↔ c ∈ customers ∧ c.id ≠ some i)
  ∧ List.Sublist (delete_remaining customers i) customers
  ∧ (∀ c, c ∈ customers → c.id = none → c ∈ delete_remaining customers i)
  ∧ (∀ pre c post, c.id = some i → (∀ d ∈ pre, d.id ≠ some i) →
        find_customer (pre ++ c :: post) i = some c)
  ∧ (∀ pre c post f, c.id = some i → (∀ d ∈ pre, d.id ≠ some i) →
        edit_apply (pre ++ c :: post) i f =
          pre ++ update_fields c f :: post) := by
  refine ⟨fun c => ?_, List.filter_sublist _, fun c hc hid => ?_, ?_, ?_⟩
  · simp [delete_remaining, List.mem_filter]
  · simp [delete_remaining, List.mem_filter, hc, hid]
  · intro pre c post hcid
    induction pre with
    | nil => intro _; simp [find_customer, hcid]
    | cons d ds ih =>
        intro hpre
        have hd : d.id ≠ some i := hpre d (List.mem_cons_self d ds)
        simp only [List.cons_append, find_customer]
        rw [if_neg hd]
        exact ih (fun e he => hpre e (List.mem_cons_of_mem d he))
  · intro pre c post f hcid
    induction pre with
    | nil => intro _; simp [edit_apply, hcid]
    | cons d ds ih =>
        intro hpre
        have hd : d.id ≠ some i := hpre d (List.mem_cons_self d ds)
        simp only [List.cons_append, edit_apply]
        rw [if_neg hd]
        exact congrArg (List.cons d)
          (ih (fun e he => hpre e (List.mem_cons_of_mem d he)))

/-- Witness for C10: a store with a duplicated id 3 and an id-less record;
find returns the first record with id 3. -/
theorem delete_semantics_witness :
    delete_remaining [dup1, noid, dup2] 3 = [noid]
  ∧ find_customer [dup1, noid, dup2] 3 = some dup1 :=
  ⟨by decide,
   (delete_semantics [dup1, noid, dup2] 3).2.2.2.1 [] dup1 [noid, dup2]
     rfl (by simp)⟩

/-- Claim C1 counterexample: deleting the only record prints just the
confirmation line; the rendered table of the remaining (empty) store — the
placeholder text — is not among the printed lines. -/
theorem delete_last_prints_no_table :
    (delete_customer [ann] 1).saved = some []
  ∧ (delete_customer [ann] 1).output = ["Deleted customer 1."]
  ∧ render_table [] = "(no customers yet)"
  ∧ "(no customers yet)" ∉ (delete_customer [ann] 1).output := by
  refine ⟨by decide, by decide, rfl, by decide⟩

/-- Claim C1 as amended: a successful delete prints the confirmation
identifying the deleted id; it prints the rendered table of the remaining
records only when some records remain, and prints no table when the store
held only the deleted record — though rendering the empty store does yield
the fixed placeholder text. -/
theorem delete_success_output (customers : List Customer) (i : Int)
    (h : find_customer customers i ≠ none) :
    (delete_customer customers i).saved = some (delete_remaining customers i)
  ∧ (delete_customer customers i).exitCode = 0
  ∧ (delete_remaining customers i = [] →
      (delete_customer customers i).output =
        ["Deleted customer " ++ toString i ++ "."])
  ∧ (delete_remaining customers i ≠ [] →
      (delete_customer customers i).output =
        ["Deleted customer " ++ toString i ++ ".",
         "Remaining customers:", render_table (delete_remaining customers i)])
  ∧ render_table [] = "(no customers yet)" := by
  cases hf : find_customer customers i with
  | none => exact absurd hf h
  | some c =>
      refine ⟨?_, ?_, fun he => ?_, fun hne => ?_, rfl⟩
      · simp [delete_customer, hf]
      · simp [delete_customer, hf]
      · simp [delete_customer, hf, he]
      · simp [delete_customer, hf, List.isEmpty_iff, hne]

/-- Witness for C1 (amended) at a concrete two-record store. -/
theorem delete_success_output_witness :
    find_customer [ann, bob] 1 ≠ none
  ∧ (delete_customer [ann, bob] 1).saved = some [bob] :=
  ⟨by decide,
   ((delete_success_output [ann, bob] 1 (by decide)).1).trans (by decide)⟩

end CustomerManager
